import Mathlib

/-!
Verification model of the dvd-auto-ripper repository.

The repository has two near-duplicate pipelines, `src/bluray_ripper.py` and
`src/dvd_ripper_windows.py`.  The pure decision logic of each relevant
function is translated here; external effects (subprocess invocations,
HTTP responses, the filesystem, sample extraction) are passed in as
explicit inputs: a sampler is a function from title id to sample byte
size (0 encodes a failed sample, mirroring `sample_title` returning
`(None, 0)` on failure), an HTTP interaction is an `Except` value, and a
directory listing is a list of file names.
-/

namespace DiscRipper

/-! ### Duration classification (`filter_episodes`)

`bluray_ripper.py` lines 701-771 and `dvd_ripper_windows.py` lines
1037-1133 contain the same algorithm; the only difference is the shape
of a title record (the bluray variant stores a chapter count, the dvd
variant a chapter list whose length is used as the sort key).  The
shared body is `filterEpisodesCore`, instantiated below for each
variant.  The second component of the result counts how many times
`sample_title` is invoked.
-/

/-- One membership test of `duration` against the `episode_ranges`
dictionary: the python code checks `min_sec <= duration <= max_sec` for
each named range and accepts on the first hit. -/
def inAnyRange (ranges : List (String × ℚ × ℚ)) (d : ℤ) : Bool :=
  ranges.any fun r => decide (r.2.1 ≤ (d : ℚ) ∧ (d : ℚ) ≤ r.2.2)

/-- Key insertion for a python dict: a fresh key is appended, an existing
key keeps its position.  Used to model the insertion-ordered keys of
`duration_groups`. -/
def addIfNew (l : List ℤ) (d : ℤ) : List ℤ :=
  if d ∈ l then l else l ++ [d]

/-- Insertion step of an ascending sort on integers. -/
def insertAscZ (x : ℤ) : List ℤ → List ℤ
  | [] => [x]
  | y :: ys => if x < y then x :: y :: ys else y :: insertAscZ x ys

/-- Ascending sort on integers, modelling `sorted(duration_groups.items())`
(the keys are distinct, so stability is irrelevant here). -/
def sortAscZ (l : List ℤ) : List ℤ :=
  l.foldl (fun acc x => insertAscZ x acc) []

/-- Stable insertion step for a descending sort: an element is placed
after every earlier element whose key is at least as large, which is
exactly the stable order python's `sorted(..., reverse=True)` produces. -/
def insertDescBy {α : Type} (key : α → ℤ) (sorted : List α) (x : α) : List α :=
  match sorted with
  | [] => [x]
  | y :: ys => if key y < key x then x :: y :: ys else y :: insertDescBy key ys x

/-- Stable descending sort by an integer key, modelling
`sorted(group, key=..., reverse=True)`. -/
def sortDescBy {α : Type} (key : α → ℤ) (l : List α) : List α :=
  l.foldl (insertDescBy key) []

/-- The duplicate-detection loop over one duration group.  `seen` models
the key set of the `samples` dict and `unique` the accepted title ids
(`unique_titles`).  A title is sampled; samples of size 0 (failures) are
skipped, a fresh size is recorded and accepts the title, a repeated size
marks the title as a duplicate. -/
def collectUnique {ι α : Type} [DecidableEq ι] (sampler : ι → ℕ) :
    List (ι × α) → List ℕ → List ι → List ι
  | [], _, unique => unique
  | (num, _) :: rest, seen, unique =>
    let s := sampler num
    if 0 < s then
      if s ∈ seen then collectUnique sampler rest seen unique
      else collectUnique sampler rest (s :: seen) (unique ++ [num])
    else collectUnique sampler rest seen unique

/-- Processing of one duration group: groups with at least two titles are
deduplicated by sample fingerprint after a stable descending sort on the
chapter key; a smaller group is accepted as-is with no sampling.  The
second component counts `sample_title` invocations (one per group member
when the group is sampled).  The python source selects the accepted
titles by iterating `unique_titles` (a set, so in unspecified order) and
re-looking each id up in `group`; with distinct ids the accepted set is
exactly the group members whose id was collected, which the model takes
in group order. -/
def processGroup {ι α : Type} [DecidableEq ι] (chapKey : α → ℤ) (sampler : ι → ℕ)
    (group : List (ι × α)) : List (ι × α) × ℕ :=
  if 2 ≤ group.length then
    let sortedGroup := sortDescBy (fun p => chapKey p.2) group
    let uniqueIds := collectUnique sampler sortedGroup [] []
    (group.filter fun p => decide (p.1 ∈ uniqueIds), group.length)
  else (group, 0)

/-- Shared body of the two `filter_episodes` variants.  First pass: keep
the titles whose duration lies in at least one episode range, grouped by
exact duration in insertion order.  Second pass: process the groups in
ascending duration order, accumulating accepted titles and the number of
samples taken. -/
def filterEpisodesCore {ι α : Type} [DecidableEq ι] (dur : α → ℤ) (chapKey : α → ℤ)
    (sampler : ι → ℕ) (titles : List (ι × α)) (episode_ranges : List (String × ℚ × ℚ)) :
    List (ι × α) × ℕ :=
  let validTitles := titles.filter fun p => inAnyRange episode_ranges (dur p.2)
  let durs := sortAscZ ((validTitles.map fun p => dur p.2).foldl addIfNew [])
  durs.foldl
    (fun acc d =>
      let pg := processGroup chapKey sampler (validTitles.filter fun p => dur p.2 == d)
      (acc.1 ++ pg.1, acc.2 + pg.2))
    ([], 0)

namespace Bluray

/-- A title record as built by `parse_titles` in `bluray_ripper.py`
(lines 1105-1114): number, duration in seconds, size in bytes, chapter
count, name and output filename. -/
structure Title where
  number : ℤ
  duration : ℤ
  size_bytes : ℤ
  chapters : ℤ
  name : String
  filename : String
deriving Repr, DecidableEq

/-- The `filter_episodes` of `bluray_ripper.py` (lines 701-771).
`min_length` and `max_length` are only interpolated into a log message
there, and `device` is the drive passed through to `sample_title`; the
sampler argument stands for `sample_title` on that device. -/
def filter_episodes (sampler : ℤ → ℕ) (titles : List (ℤ × Title))
    (min_length max_length : ℚ) (episode_ranges : List (String × ℚ × ℚ)) :
    List (ℤ × Title) × ℕ :=
  filterEpisodesCore (fun t => t.duration) (fun t => t.chapters) sampler titles episode_ranges

end Bluray

namespace Dvd

/-- A title record as built by `scan_disc` in `dvd_ripper_windows.py`
(lines 226-232): duration in seconds, chapter list of
(chapter number, chapter duration) pairs, and the audio/subtitle lists
(which no code path ever fills). -/
structure Title where
  duration : ℤ
  chapters : List (ℕ × ℤ)
  audio : List ℕ
  subtitles : List ℕ
deriving Repr, DecidableEq

/-- The `filter_episodes` of `dvd_ripper_windows.py` (lines 1037-1133);
identical to the bluray variant except that the sort key is the length
of the chapter list. -/
def filter_episodes (sampler : ℕ → ℕ) (titles : List (ℕ × Title))
    (min_length max_length : ℚ) (episode_ranges : List (String × ℚ × ℚ)) :
    List (ℕ × Title) × ℕ :=
  filterEpisodesCore (fun t => t.duration) (fun t => (t.chapters.length : ℤ))
    sampler titles episode_ranges

end Dvd

/-! ### Claim C1 -/

lemma filterEpisodesCore_pair {ι α : Type} [DecidableEq ι]
    (dur : α → ℤ) (chapKey : α → ℤ) (sampler : ι → ℕ)
    (n1 n2 : ι) (t1 t2 : α) (ranges : List (String × ℚ × ℚ))
    (hn : n1 ≠ n2) (hd : dur t2 = dur t1)
    (hin : inAnyRange ranges (dur t1) = true)
    (hc : chapKey t2 < chapKey t1)
    (hs1 : 0 < sampler n1) (hs2 : 0 < sampler n2) :
    (filterEpisodesCore dur chapKey sampler [(n1, t1), (n2, t2)] ranges).1 =
      if sampler n1 = sampler n2 then [(n1, t1)] else [(n1, t1), (n2, t2)] := by
  have hin2 : inAnyRange ranges (dur t2) = true := by rw [hd]; exact hin
  have hck : ¬ (chapKey t1 < chapKey t2) := not_lt.mpr (le_of_lt hc)
  have hn2 : ¬ (n2 = n1) := fun h => hn h.symm
  by_cases hss : sampler n1 = sampler n2
  · simp only [if_pos hss]
    simp [filterEpisodesCore, processGroup, sortDescBy, insertDescBy, collectUnique,
      sortAscZ, insertAscZ, addIfNew, hin, hin2, hd, hck, hs1, hs2, hss, hn2,
      List.filter_cons]
  · simp only [if_neg hss]
    have hss2 : sampler n2 ≠ sampler n1 := Ne.symm hss
    simp [filterEpisodesCore, processGroup, sortDescBy, insertDescBy, collectUnique,
      sortAscZ, insertAscZ, addIfNew, hin, hin2, hd, hck, hs1, hs2, hss2, hn2,
      List.filter_cons]


/-- C1: in a duration group of two titles processed in descending
chapter-count order, identical sample fingerprints keep only the
higher-chapter-count title while distinct fingerprints keep both, in
both pipeline variants. -/
theorem claim_C1_group_fingerprint_dedup
    (samplerB : ℤ → ℕ) (samplerD : ℕ → ℕ)
    (n1 n2 : ℤ) (m1 m2 : ℕ) (t1 t2 : Bluray.Title) (u1 u2 : Dvd.Title)
    (mn mx : ℚ) (ranges : List (String × ℚ × ℚ))
    (hbn : n1 ≠ n2) (hbd : t2.duration = t1.duration)
    (hbin : inAnyRange ranges t1.duration = true)
    (hbc : t2.chapters < t1.chapters)
    (hbs1 : 0 < samplerB n1) (hbs2 : 0 < samplerB n2)
    (hdn : m1 ≠ m2) (hdd : u2.duration = u1.duration)
    (hdin : inAnyRange ranges u1.duration = true)
    (hdc : u2.chapters.length < u1.chapters.length)
    (hds1 : 0 < samplerD m1) (hds2 : 0 < samplerD m2) :
    (Bluray.filter_episodes samplerB [(n1, t1), (n2, t2)] mn mx ranges).1 =
      (if samplerB n1 = samplerB n2 then [(n1, t1)] else [(n1, t1), (n2, t2)]) ∧
    (Dvd.filter_episodes samplerD [(m1, u1), (m2, u2)] mn mx ranges).1 =
      (if samplerD m1 = samplerD m2 then [(m1, u1)] else [(m1, u1), (m2, u2)]) := by
  constructor
  · exact filterEpisodesCore_pair _ _ samplerB n1 n2 t1 t2 ranges hbn hbd hbin hbc hbs1 hbs2
  · exact filterEpisodesCore_pair _ _ samplerD m1 m2 u1 u2 ranges hdn hdd hdin
      (by exact_mod_cast hdc) hds1 hds2

/-- Witness for C1 at a concrete two-title catalog. -/
theorem claim_C1_group_fingerprint_dedup_witness :
    (Bluray.filter_episodes (fun _ => 42) [(1, ⟨1, 660, 0, 8, "", ""⟩), (2, ⟨2, 660, 0, 3, "", ""⟩)]
        10 24 [("full", 600, 1440)]).1 = [(1, ⟨1, 660, 0, 8, "", ""⟩)] ∧
    (Dvd.filter_episodes (fun _ => 42) [(1, ⟨660, [(1, 300), (2, 300)], [], []⟩), (2, ⟨660, [(1, 600)], [], []⟩)]
        10 24 [("full", 600, 1440)]).1 = [(1, ⟨660, [(1, 300), (2, 300)], [], []⟩)] := by
  have h := claim_C1_group_fingerprint_dedup (fun _ => 42) (fun _ => 42) 1 2 1 2
      ⟨1, 660, 0, 8, "", ""⟩ ⟨2, 660, 0, 3, "", ""⟩
      ⟨660, [(1, 300), (2, 300)], [], []⟩ ⟨660, [(1, 600)], [], []⟩
      10 24 [("full", 600, 1440)]
      (by decide) (by decide) (by decide) (by decide) (by decide) (by decide)
      (by decide) (by decide) (by decide) (by decide) (by decide) (by decide)
  simpa using h


/-! ### Claims C2 and C8 -/

lemma mem_insertAscZ {x y : ℤ} {l : List ℤ} : x ∈ insertAscZ y l ↔ x = y ∨ x ∈ l := by
  induction l with
  | nil => simp [insertAscZ]
  | cons a as ih =>
    simp only [insertAscZ]
    split
    · simp [List.mem_cons]
    · simp only [List.mem_cons, ih]
      tauto

lemma mem_foldl_insertAscZ (l : List ℤ) :
    ∀ (init : List ℤ) (x : ℤ),
      x ∈ l.foldl (fun acc y => insertAscZ y acc) init ↔ x ∈ init ∨ x ∈ l := by
  induction l with
  | nil => intro init x; simp
  | cons a as ih =>
    intro init x
    rw [List.foldl_cons, ih]
    simp only [mem_insertAscZ, List.mem_cons]
    tauto

lemma mem_sortAscZ {x : ℤ} {l : List ℤ} : x ∈ sortAscZ l ↔ x ∈ l := by
  rw [sortAscZ, mem_foldl_insertAscZ]
  simp

lemma mem_foldl_addIfNew (l : List ℤ) :
    ∀ (init : List ℤ) (x : ℤ), x ∈ l.foldl addIfNew init ↔ x ∈ init ∨ x ∈ l := by
  induction l with
  | nil => intro init x; simp
  | cons a as ih =>
    intro init x
    rw [List.foldl_cons, ih]
    by_cases h : a ∈ init
    · simp only [addIfNew, if_pos h, List.mem_cons]
      constructor
      · rintro (hx | hx)
        · exact Or.inl hx
        · exact Or.inr (Or.inr hx)
      · rintro (hx | rfl | hx)
        · exact Or.inl hx
        · exact Or.inl h
        · exact Or.inr hx
    · simp only [addIfNew, if_neg h, List.mem_append, List.mem_singleton, List.mem_cons]
      tauto

lemma nodup_const_length_le_one {γ : Type} {xs : List γ} {d : γ}
    (hnd : xs.Nodup) (hall : ∀ x ∈ xs, x = d) : xs.length ≤ 1 := by
  match xs, hnd, hall with
  | [], _, _ => simp
  | [x], _, _ => simp
  | x :: y :: rest, hnd, hall =>
    exfalso
    have hx : x = d := hall x (by simp)
    have hy : y = d := hall y (by simp)
    have := List.nodup_cons.mp hnd
    exact this.1 (by simp [hx, hy])

lemma length_filter_le_one_of_nodup_map {β γ : Type} [BEq γ] [LawfulBEq γ]
    (l : List β) (f : β → γ) (hnd : (l.map f).Nodup) (d : γ) :
    (l.filter fun p => f p == d).length ≤ 1 := by
  have hsub : (l.filter fun p => f p == d).Sublist l := List.filter_sublist l
  have h2 : ((l.filter fun p => f p == d).map f).Nodup := hnd.sublist (hsub.map f)
  have h3 : ∀ x ∈ (l.filter fun p => f p == d).map f, x = d := by
    intro x hx
    obtain ⟨p, hp, rfl⟩ := List.mem_map.mp hx
    exact eq_of_beq (List.mem_filter.mp hp).2
  have := nodup_const_length_le_one h2 h3
  simpa using this

lemma processGroup_small {ι α : Type} [DecidableEq ι] (chapKey : α → ℤ) (sampler : ι → ℕ)
    {g : List (ι × α)} (h : g.length ≤ 1) : processGroup chapKey sampler g = (g, 0) := by
  rw [processGroup, if_neg]
  omega

lemma processGroup_fst_subset {ι α : Type} [DecidableEq ι] (chapKey : α → ℤ) (sampler : ι → ℕ)
    (g : List (ι × α)) {p : ι × α} (hp : p ∈ (processGroup chapKey sampler g).1) : p ∈ g := by
  rw [processGroup] at hp
  split at hp
  · exact List.mem_of_mem_filter hp
  · exact hp

lemma foldl_groups_mem {β : Type} (f : ℤ → List β × ℕ) (durs : List ℤ) :
    ∀ (init : List β × ℕ) (p : β),
      (p ∈ (durs.foldl (fun acc d => (acc.1 ++ (f d).1, acc.2 + (f d).2)) init).1 ↔
        p ∈ init.1 ∨ ∃ d ∈ durs, p ∈ (f d).1) := by
  induction durs with
  | nil => intro init p; simp
  | cons d ds ih =>
    intro init p
    rw [List.foldl_cons, ih]
    simp only [List.mem_append, List.mem_cons]
    constructor
    · rintro ((hx | hx) | ⟨e, he, hx⟩)
      · exact Or.inl hx
      · exact Or.inr ⟨d, Or.inl rfl, hx⟩
      · exact Or.inr ⟨e, Or.inr he, hx⟩
    · rintro (hx | ⟨e, (rfl | he), hx⟩)
      · exact Or.inl (Or.inl hx)
      · exact Or.inl (Or.inr hx)
      · exact Or.inr ⟨e, he, hx⟩

lemma foldl_groups_count {β : Type} (f : ℤ → List β × ℕ) (durs : List ℤ)
    (h : ∀ d ∈ durs, (f d).2 = 0) :
    ∀ (init : List β × ℕ),
      (durs.foldl (fun acc d => (acc.1 ++ (f d).1, acc.2 + (f d).2)) init).2 = init.2 := by
  induction durs with
  | nil => intro init; rfl
  | cons d ds ih =>
    intro init
    rw [List.foldl_cons, ih (fun e he => h e (List.mem_cons_of_mem d he))]
    simp [h d (List.mem_cons_self d ds)]

theorem filterEpisodesCore_distinct {ι α : Type} [DecidableEq ι]
    (dur : α → ℤ) (chapKey : α → ℤ) (sampler : ι → ℕ)
    (titles : List (ι × α)) (ranges : List (String × ℚ × ℚ))
    (hnd : ((titles.filter fun p => inAnyRange ranges (dur p.2)).map fun p => dur p.2).Nodup) :
    (∀ p, p ∈ (filterEpisodesCore dur chapKey sampler titles ranges).1 ↔
        p ∈ titles ∧ inAnyRange ranges (dur p.2) = true) ∧
    (filterEpisodesCore dur chapKey sampler titles ranges).2 = 0 := by
  set vts := titles.filter fun p => inAnyRange ranges (dur p.2) with hvts
  set durs := sortAscZ ((vts.map fun p => dur p.2).foldl addIfNew []) with hdurs
  set f : ℤ → List (ι × α) × ℕ :=
    fun d => processGroup chapKey sampler (vts.filter fun q => dur q.2 == d) with hf
  have hcore : filterEpisodesCore dur chapKey sampler titles ranges =
      durs.foldl (fun acc d => (acc.1 ++ (f d).1, acc.2 + (f d).2)) ([], 0) := rfl
  have hsmall : ∀ d : ℤ, (vts.filter fun q => dur q.2 == d).length ≤ 1 := fun d =>
    length_filter_le_one_of_nodup_map vts (fun p => dur p.2) hnd d
  have hfd : ∀ d : ℤ, f d = (vts.filter fun q => dur q.2 == d, 0) := fun d =>
    processGroup_small chapKey sampler (hsmall d)
  constructor
  · intro p
    rw [hcore, foldl_groups_mem]
    simp only [List.not_mem_nil, false_or]
    constructor
    · rintro ⟨d, _, hp⟩
      rw [hfd d] at hp
      have := List.mem_of_mem_filter hp
      exact List.mem_filter.mp this
    · intro hp
      have hpv : p ∈ vts := List.mem_filter.mpr ⟨hp.1, hp.2⟩
      refine ⟨dur p.2, ?_, ?_⟩
      · rw [hdurs, mem_sortAscZ, mem_foldl_addIfNew]
        exact Or.inr (List.mem_map.mpr ⟨p, hpv, rfl⟩)
      · rw [hfd]
        exact List.mem_filter.mpr ⟨hpv, by simp⟩
  · rw [hcore, foldl_groups_count]
    intro d _
    rw [hfd]


/-- C2: when the in-band titles of a catalog have pairwise distinct
durations, classification accepts exactly the in-band titles (each
unchanged) and never invokes the sampler, in both pipeline variants. -/
theorem claim_C2_distinct_durations_no_sampling
    (samplerB : ℤ → ℕ) (samplerD : ℕ → ℕ)
    (titlesB : List (ℤ × Bluray.Title)) (titlesD : List (ℕ × Dvd.Title))
    (mn mx : ℚ) (ranges : List (String × ℚ × ℚ))
    (hB : ((titlesB.filter fun p => inAnyRange ranges p.2.duration).map
        fun p => p.2.duration).Nodup)
    (hD : ((titlesD.filter fun p => inAnyRange ranges p.2.duration).map
        fun p => p.2.duration).Nodup) :
    ((∀ p, p ∈ (Bluray.filter_episodes samplerB titlesB mn mx ranges).1 ↔
        p ∈ titlesB ∧ inAnyRange ranges p.2.duration = true) ∧
      (Bluray.filter_episodes samplerB titlesB mn mx ranges).2 = 0) ∧
    ((∀ q, q ∈ (Dvd.filter_episodes samplerD titlesD mn mx ranges).1 ↔
        q ∈ titlesD ∧ inAnyRange ranges q.2.duration = true) ∧
      (Dvd.filter_episodes samplerD titlesD mn mx ranges).2 = 0) :=
  ⟨filterEpisodesCore_distinct _ _ samplerB titlesB ranges hB,
    filterEpisodesCore_distinct _ _ samplerD titlesD ranges hD⟩

/-- Witness for C2 at the spec's example catalog: titles of 660, 1300 and
630 seconds against the band (600, 1440), all accepted with zero samples. -/
theorem claim_C2_distinct_durations_no_sampling_witness :
    ((1, (⟨1, 660, 0, 5, "", ""⟩ : Bluray.Title)) ∈
      (Bluray.filter_episodes (fun _ => 0)
        [(1, ⟨1, 660, 0, 5, "", ""⟩), (2, ⟨2, 1300, 0, 5, "", ""⟩), (3, ⟨3, 630, 0, 5, "", ""⟩)]
        10 24 [("band", 600, 1440)]).1) ∧
    (Bluray.filter_episodes (fun _ => 0)
        [(1, ⟨1, 660, 0, 5, "", ""⟩), (2, ⟨2, 1300, 0, 5, "", ""⟩), (3, ⟨3, 630, 0, 5, "", ""⟩)]
        10 24 [("band", 600, 1440)]).2 = 0 ∧
    (Dvd.filter_episodes (fun _ => 0)
        [(1, ⟨660, [(1, 120)], [], []⟩), (2, ⟨1300, [(1, 120)], [], []⟩), (3, ⟨630, [(1, 120)], [], []⟩)]
        10 24 [("band", 600, 1440)]).2 = 0 := by
  have h := claim_C2_distinct_durations_no_sampling (fun _ => 0) (fun _ => 0)
      [(1, ⟨1, 660, 0, 5, "", ""⟩), (2, ⟨2, 1300, 0, 5, "", ""⟩), (3, ⟨3, 630, 0, 5, "", ""⟩)]
      [(1, ⟨660, [(1, 120)], [], []⟩), (2, ⟨1300, [(1, 120)], [], []⟩), (3, ⟨630, [(1, 120)], [], []⟩)]
      10 24 [("band", 600, 1440)] (by decide) (by decide)
  exact ⟨(h.1.1 _).mpr ⟨by simp, by decide⟩, h.1.2, h.2.2⟩

lemma filterEpisodesCore_inband {ι α : Type} [DecidableEq ι]
    (dur : α → ℤ) (chapKey : α → ℤ) (sampler : ι → ℕ)
    (titles : List (ι × α)) (ranges : List (String × ℚ × ℚ)) :
    ∀ p ∈ (filterEpisodesCore dur chapKey sampler titles ranges).1,
      inAnyRange ranges (dur p.2) = true := by
  intro p hp
  set vts := titles.filter fun p => inAnyRange ranges (dur p.2) with hvts
  set durs := sortAscZ ((vts.map fun p => dur p.2).foldl addIfNew []) with hdurs
  set f : ℤ → List (ι × α) × ℕ :=
    fun d => processGroup chapKey sampler (vts.filter fun q => dur q.2 == d) with hf
  have hcore : filterEpisodesCore dur chapKey sampler titles ranges =
      durs.foldl (fun acc d => (acc.1 ++ (f d).1, acc.2 + (f d).2)) ([], 0) := rfl
  rw [hcore, foldl_groups_mem] at hp
  rcases hp with hp | ⟨d, _, hp⟩
  · simp at hp
  · have h1 : p ∈ vts :=
      List.mem_of_mem_filter (processGroup_fst_subset _ _ _ hp)
    exact (List.mem_filter.mp h1).2

/-- C8: every title accepted by classification lies inside at least one
of the supplied duration bands, in both pipeline variants. -/
theorem claim_C8_accepted_within_band
    (samplerB : ℤ → ℕ) (samplerD : ℕ → ℕ)
    (titlesB : List (ℤ × Bluray.Title)) (titlesD : List (ℕ × Dvd.Title))
    (mn mx : ℚ) (ranges : List (String × ℚ × ℚ)) (hne : ranges ≠ []) :
    (∀ p ∈ (Bluray.filter_episodes samplerB titlesB mn mx ranges).1,
        inAnyRange ranges p.2.duration = true) ∧
    (∀ q ∈ (Dvd.filter_episodes samplerD titlesD mn mx ranges).1,
        inAnyRange ranges q.2.duration = true) :=
  ⟨filterEpisodesCore_inband _ _ samplerB titlesB ranges,
    filterEpisodesCore_inband _ _ samplerD titlesD ranges⟩

/-- Witness for C8 at a concrete catalog containing an out-of-band title. -/
theorem claim_C8_accepted_within_band_witness :
    inAnyRange [("band", 600, 1440)] (660 : ℤ) = true := by
  have h := claim_C8_accepted_within_band (fun _ => 42) (fun _ => 42)
      [(1, ⟨1, 660, 0, 5, "", ""⟩), (2, ⟨2, 90, 0, 5, "", ""⟩)]
      [(1, ⟨660, [(1, 120)], [], []⟩)] 10 24 [("band", 600, 1440)] (by decide)
  exact h.1 (1, ⟨1, 660, 0, 5, "", ""⟩) (by decide)


/-! ### Claim C10 -/

namespace Bluray

/-- One entry of the `title_info` mapping built by `get_title_info` in
`bluray_ripper.py` (lines 821-837): the duration in seconds and the
derived duration in minutes. -/
structure TitleInfo where
  duration : ℤ
  duration_mins : ℚ
deriving Repr, DecidableEq

/-- The `filter_titles_by_duration` of `bluray_ripper.py` (lines
839-856): the margin-expanded window is computed once, then each title
is routed to the matching or the non-matching mapping by the test
`min_with_margin <= duration <= max_with_margin`; the python loop
appends in iteration order, which is exactly an order-preserving
partition. -/
def filter_titles_by_duration (title_info : List (ℤ × TitleInfo))
    (min_runtime max_runtime : ℚ) (margin_percent : ℚ) :
    List (ℤ × TitleInfo) × List (ℤ × TitleInfo) :=
  let margin := margin_percent / 100
  let min_with_margin := min_runtime * (1 - margin)
  let max_with_margin := max_runtime * (1 + margin)
  title_info.partition fun p =>
    decide (min_with_margin ≤ (p.2.duration : ℚ) ∧ (p.2.duration : ℚ) ≤ max_with_margin)

end Bluray

/-- C10: `filter_titles_by_duration` partitions its input; every title
lands in exactly one of the two returned mappings with its info
unchanged, and it lands in the matching one precisely when its duration
lies in the margin-expanded window. -/
theorem claim_C10_filter_titles_by_duration_partition
    (title_info : List (ℤ × Bluray.TitleInfo)) (min_runtime max_runtime margin_percent : ℚ) :
    (∀ p, p ∈ title_info ↔
      (p ∈ (Bluray.filter_titles_by_duration title_info min_runtime max_runtime margin_percent).1 ∨
       p ∈ (Bluray.filter_titles_by_duration title_info min_runtime max_runtime margin_percent).2)) ∧
    (∀ p, ¬(p ∈ (Bluray.filter_titles_by_duration title_info min_runtime max_runtime margin_percent).1 ∧
       p ∈ (Bluray.filter_titles_by_duration title_info min_runtime max_runtime margin_percent).2)) ∧
    (∀ p, p ∈ (Bluray.filter_titles_by_duration title_info min_runtime max_runtime margin_percent).1 ↔
      (p ∈ title_info ∧
        min_runtime * (1 - margin_percent / 100) ≤ (p.2.duration : ℚ) ∧
        (p.2.duration : ℚ) ≤ max_runtime * (1 + margin_percent / 100))) := by
  refine ⟨?_, ?_, ?_⟩
  · intro p
    simp only [Bluray.filter_titles_by_duration, List.partition_eq_filter_filter,
      List.mem_filter, Function.comp, Bool.not_eq_true', decide_eq_true_eq,
      decide_eq_false_iff_not]
    tauto
  · intro p
    rintro ⟨hm, hnm⟩
    simp only [Bluray.filter_titles_by_duration, List.partition_eq_filter_filter,
      List.mem_filter, Function.comp, Bool.not_eq_true', decide_eq_true_eq,
      decide_eq_false_iff_not] at hm hnm
    exact hnm.2 hm.2
  · intro p
    simp only [Bluray.filter_titles_by_duration, List.partition_eq_filter_filter,
      List.mem_filter, decide_eq_true_eq]


/-! ### Claims C3 and C4 -/

/-! ### Episode sequencing

`find_next_available_episode` (identical in `bluray_ripper.py` lines
628-645 and `dvd_ripper_windows.py` lines 625-642) and
`get_next_season_episode` (lines 647-667 and 644-664) are modelled with
a directory given as its list of file names and the filesystem as a map
from directory path (a list of path components) to its listing; `mkdir`
has no observable effect on either.
-/

/-- Python's `%02d` formatting of a natural number. -/
def fmt02 (n : ℕ) : String :=
  if n < 10 then "0" ++ toString n else toString n

/-- The `S<season:02d>E` filename tag. -/
def seTag (season : ℕ) : String :=
  "S" ++ fmt02 season ++ "E"

/-- Python's `str.startswith`. -/
def pyStartsWith (s pre : String) : Bool :=
  pre.toList.isPrefixOf s.toList

/-- Python's `str.endswith`. -/
def pyEndsWith (s suf : String) : Bool :=
  suf.toList.isSuffixOf s.toList

/-- The glob pattern `S<season:02d>E*.mkv` applied to a file name.  A
name both starting with the tag and ending in `.mkv` cannot overlap the
two parts (the tag ends in `E`, which is neither a dot nor one of
`m`/`k`/`v`), so this equals the glob. -/
def globEpisodeMkv (season : ℕ) (name : String) : Bool :=
  pyStartsWith name (seTag season) && pyEndsWith name ".mkv"

/-- Value of a digit string, as `int()` computes it for `\d+`. -/
def digitsVal (ds : List Char) : ℕ :=
  ds.foldl (fun a c => 10 * a + (c.toNat - 48)) 0

/-- Attempt to match the regular expression `S<season:02d>E(\d+)\.mkv`
at the current position: the tag, then a maximal nonempty digit run,
then `.mkv` (the greedy `\d+` never backtracks here because a dot is not
a digit). -/
def matchEpisodeAt (tag : List Char) (cs : List Char) : Option ℕ :=
  if tag.isPrefixOf cs then
    let rest := cs.drop tag.length
    let ds := rest.takeWhile Char.isDigit
    if ds.isEmpty then none
    else if (".mkv".toList).isPrefixOf (rest.drop ds.length) then some (digitsVal ds)
    else none
  else none

/-- Python's `re.search` for `S<season:02d>E(\d+)\.mkv`: try each
position from the left. -/
def searchEpisodeNum (tag : List Char) : List Char → Option ℕ
  | [] => none
  | c :: cs =>
    match matchEpisodeAt tag (c :: cs) with
    | some n => some n
    | none => searchEpisodeNum tag cs

/-- The `existing` list built by `find_next_available_episode`: episode
numbers extracted from the glob-matching file names (directory order is
irrelevant downstream, only `max` and membership are used). -/
def existingEpisodes (files : List String) (season : ℕ) : List ℕ :=
  (files.filter (globEpisodeMkv season)).filterMap
    (fun f => searchEpisodeNum (seTag season).toList f.toList)

/-- Python's `max` over a nonempty list of naturals. -/
def maxOfList (l : List ℕ) : ℕ :=
  l.foldl max 0

/-- The loop `for i in range(1, max(existing) + 2)` with its fallback
`return max(existing) + 1`; the fuel is the length of the range. -/
def scanFrom (existing : List ℕ) : ℕ → ℕ → ℕ
  | _, 0 => maxOfList existing + 1
  | i, fuel + 1 => if i ∈ existing then scanFrom existing (i + 1) fuel else i

/-- The `find_next_available_episode` shared by both pipeline variants. -/
def find_next_available_episode (files : List String) (season_num : ℕ) : ℕ :=
  let existing := existingEpisodes files season_num
  if existing.isEmpty then 1
  else scanFrom existing 1 (maxOfList existing + 1)

lemma le_foldl_max (l : List ℕ) : ∀ a : ℕ, a ≤ l.foldl max a := by
  induction l with
  | nil => intro a; exact le_refl a
  | cons b bs ih =>
    intro a
    rw [List.foldl_cons]
    exact le_trans (le_max_left a b) (ih (max a b))

lemma mem_le_foldl_max (l : List ℕ) : ∀ (a x : ℕ), x ∈ l → x ≤ l.foldl max a := by
  induction l with
  | nil => intro a x hx; cases hx
  | cons b bs ih =>
    intro a x hx
    rw [List.foldl_cons]
    rcases List.mem_cons.mp hx with rfl | hx
    · exact le_trans (le_max_right a x) (le_foldl_max bs (max a x))
    · exact ih (max a b) x hx

lemma mem_le_maxOfList {l : List ℕ} {x : ℕ} (hx : x ∈ l) : x ≤ maxOfList l :=
  mem_le_foldl_max l 0 x hx

lemma scanFrom_spec (existing : List ℕ) :
    ∀ (fuel i : ℕ), (∃ k, i ≤ k ∧ k < i + fuel ∧ k ∉ existing) →
      scanFrom existing i fuel ∉ existing ∧ i ≤ scanFrom existing i fuel ∧
        ∀ j, i ≤ j → j < scanFrom existing i fuel → j ∈ existing := by
  intro fuel
  induction fuel with
  | zero =>
    intro i ⟨k, hik, hk, _⟩
    omega
  | succ fuel ih =>
    intro i ⟨k, hik, hk, hkn⟩
    by_cases hi : i ∈ existing
    · have hstep : scanFrom existing i (fuel + 1) = scanFrom existing (i + 1) fuel := by
        simp [scanFrom, hi]
      have hk1 : i + 1 ≤ k := by
        have hne : k ≠ i := fun h => hkn (h ▸ hi)
        omega
      have h := ih (i + 1) ⟨k, hk1, by omega, hkn⟩
      rw [hstep]
      refine ⟨h.1, by omega, ?_⟩
      intro j hij hjlt
      rcases Nat.eq_or_lt_of_le hij with rfl | hlt
      · exact hi
      · exact h.2.2 j (by omega) hjlt
    · have hstep : scanFrom existing i (fuel + 1) = i := by
        simp [scanFrom, hi]
      rw [hstep]
      exact ⟨hi, le_refl i, fun j h1 h2 => absurd (lt_of_le_of_lt h1 h2) (lt_irrefl i)⟩



/-- C3: the sequencer returns the smallest positive episode number not
already taken by an existing `S<season:02d>E<episode>.mkv` file, filling
gaps; in particular existing episodes 1, 2, 4 yield 3 and an empty
directory yields 1. -/
theorem claim_C3_find_next_available_episode_gap_fill
    (files : List String) (season_num : ℕ) :
    (find_next_available_episode files season_num ∉ existingEpisodes files season_num ∧
      0 < find_next_available_episode files season_num ∧
      ∀ j, 0 < j → j < find_next_available_episode files season_num →
        j ∈ existingEpisodes files season_num) ∧
    find_next_available_episode ["S01E01.mkv", "S01E02.mkv", "S01E04.mkv"] 1 = 3 ∧
    find_next_available_episode [] 1 = 1 := by
  refine ⟨?_, by decide, by decide⟩
  rw [find_next_available_episode]
  by_cases hemp : (existingEpisodes files season_num).isEmpty
  · rw [if_pos hemp]
    have : existingEpisodes files season_num = [] := List.isEmpty_iff.mp hemp
    rw [this]
    exact ⟨List.not_mem_nil 1, Nat.one_pos, fun j h1 h2 => by omega⟩
  · rw [if_neg hemp]
    have hmax : maxOfList (existingEpisodes files season_num) + 1 ∉
        existingEpisodes files season_num := by
      intro hmem
      have := mem_le_maxOfList hmem
      omega
    have h := scanFrom_spec (existingEpisodes files season_num)
      (maxOfList (existingEpisodes files season_num) + 1) 1
      ⟨maxOfList (existingEpisodes files season_num) + 1, by omega, by omega, hmax⟩
    exact ⟨h.1, h.2.1, fun j h1 h2 => h.2.2 j h1 h2⟩

/-- Witness for C3: applying the theorem at the three-file directory
shows 2 is among the extracted existing episode numbers. -/
theorem claim_C3_find_next_available_episode_gap_fill_witness :
    (2 : ℕ) ∈ existingEpisodes ["S01E01.mkv", "S01E02.mkv", "S01E04.mkv"] 1 := by
  have h := claim_C3_find_next_available_episode_gap_fill
    ["S01E01.mkv", "S01E02.mkv", "S01E04.mkv"] 1
  exact h.1.2.2 2 (by decide) (by rw [h.2.1]; decide)


/-- Canonical output file name `S<season:02d>E<episode:02d>.mkv`. -/
def episodeFileName (season episode : ℕ) : String :=
  "S" ++ fmt02 season ++ "E" ++ fmt02 episode ++ ".mkv"

/-- The `get_next_season_episode` shared by both pipeline variants.  The
`while True` loop body ends in an unconditional `return`, so it runs
exactly once: the episode-limit check is applied to the original season
only, and the directory created by `mkdir(exist_ok=True)` has no
observable effect on the returned value beyond the rescan of its
listing. -/
def get_next_season_episode (fs : List String → List String) (output_dir : List String)
    (season_num max_episodes : ℕ) : ℕ × ℕ × (List String × String) :=
  let next_episode := find_next_available_episode (fs output_dir) season_num
  if next_episode > max_episodes then
    let s2 := season_num + 1
    let d2 := output_dir.dropLast ++ ["Season " ++ toString s2]
    let e2 := find_next_available_episode (fs d2) s2
    (s2, e2, (d2, episodeFileName s2 e2))
  else
    (season_num, next_episode, (output_dir, episodeFileName season_num next_episode))

/-- A filesystem in which season 1 is at its two-episode limit and the
season 2 directory already holds three episodes. -/
def fsBothSeasonsFull : List String → List String
  | ["Show", "Season 1"] => ["S01E01.mkv", "S01E02.mkv"]
  | ["Show", "Season 2"] => ["S02E01.mkv", "S02E02.mkv", "S02E03.mkv"]
  | _ => []

/-- A filesystem in which season 1 is at its two-episode limit and the
season 2 directory is empty. -/
def fsSeasonOneFull : List String → List String
  | ["Show", "Season 1"] => ["S01E01.mkv", "S01E02.mkv"]
  | _ => []

/-- Counterexample to C4: with season 1 full (limit 2) and the season 2
directory already holding episodes 1-3, the sequencer returns episode 4,
which exceeds the limit — the rollover check is not reapplied after the
season increment. -/
theorem claim_C4_counterexample_episode_exceeds_limit :
    (get_next_season_episode fsBothSeasonsFull ["Show", "Season 1"] 1 2).2.1 = 4 ∧ 2 < 4 := by
  constructor
  · decide
  · decide

/-- C4 amended: when the next episode fits the limit the season is kept
and the returned episode respects the limit; when it exceeds the limit
the season is incremented once and the scan runs once on the new
season's directory (whose own content may push the episode past the
limit again); the spec's example with an empty next season returns
season 2, episode 1. -/
theorem claim_C4_season_rollover
    (fs : List String → List String) (output_dir : List String)
    (season_num max_episodes : ℕ) :
    (find_next_available_episode (fs output_dir) season_num ≤ max_episodes →
      get_next_season_episode fs output_dir season_num max_episodes =
        (season_num, find_next_available_episode (fs output_dir) season_num,
          (output_dir,
            episodeFileName season_num (find_next_available_episode (fs output_dir) season_num))) ∧
      (get_next_season_episode fs output_dir season_num max_episodes).2.1 ≤ max_episodes) ∧
    (max_episodes < find_next_available_episode (fs output_dir) season_num →
      get_next_season_episode fs output_dir season_num max_episodes =
        (season_num + 1,
          find_next_available_episode
            (fs (output_dir.dropLast ++ ["Season " ++ toString (season_num + 1)]))
            (season_num + 1),
          (output_dir.dropLast ++ ["Season " ++ toString (season_num + 1)],
            episodeFileName (season_num + 1)
              (find_next_available_episode
                (fs (output_dir.dropLast ++ ["Season " ++ toString (season_num + 1)]))
                (season_num + 1))))) ∧
    get_next_season_episode fsSeasonOneFull ["Show", "Season 1"] 1 2 =
      (2, 1, (["Show", "Season 2"], "S02E01.mkv")) := by
  refine ⟨?_, ?_, by decide⟩
  · intro h
    have hcond : ¬ (find_next_available_episode (fs output_dir) season_num > max_episodes) := by
      omega
    constructor
    · rw [get_next_season_episode, if_neg hcond]
    · rw [get_next_season_episode, if_neg hcond]
      exact h
  · intro h
    have hcond : find_next_available_episode (fs output_dir) season_num > max_episodes := h
    rw [get_next_season_episode, if_pos hcond]

/-- Witness for C4 amended, at the spec's example input. -/
theorem claim_C4_season_rollover_witness :
    get_next_season_episode fsSeasonOneFull ["Show", "Season 1"] 1 2 =
      (2, 1, (["Show", "Season 2"], "S02E01.mkv")) := by
  have h := (claim_C4_season_rollover fsSeasonOneFull ["Show", "Season 1"] 1 2).2.1 (by decide)
  rw [h]
  decide


/-! ### Claim C5 -/

namespace Bluray

/-- One episode record of the TVDB response used by
`get_tvdb_episode_info`; a `runtime` of 0 encodes a missing or falsy
`episode.get('runtime')`. -/
structure TvdbEpisode where
  seasonNumber : ℤ
  runtime : ℤ
deriving Repr, DecidableEq

/-- The `get_tvdb_episode_info` of `bluray_ripper.py` (lines 526-579).
Its two HTTP requests are modelled as one injected response carrying the
search hits (ids) and the episode list; a failing request, an empty
search result (the raised `BluRayError` is caught by the function's own
generic handler) and an empty runtime list all collapse to the fixed
30-60 minute fallback, and non-network exceptions behave like the
search/runtime failures they arise from. -/
def get_tvdb_episode_info (resp : Except String (List ℤ × List TvdbEpisode))
    (season_num : ℤ) : ℤ × ℤ :=
  match resp with
  | .error _ => (30 * 60, 60 * 60)
  | .ok (shows, episodes) =>
    if shows.isEmpty then (30 * 60, 60 * 60)
    else
      let season_runtimes := episodes.filterMap fun e =>
        if e.seasonNumber = season_num ∧ e.runtime ≠ 0 then some e.runtime else none
      match season_runtimes with
      | [] => (30 * 60, 60 * 60)
      | r :: rs => ((rs.foldl min r) * 60, (rs.foldl max r) * 60)

end Bluray

namespace Dvd

/-- One episode record of the TVDB response used by `get_tvdb_info`;
a value of 0 encodes a missing or falsy field. -/
structure TvdbEpisode where
  number : ℤ
  runtime : ℤ
deriving Repr, DecidableEq

/-- The dictionary returned by `get_tvdb_info`. -/
structure ShowInfo where
  show_name : String
  season : ℤ
  episode_count : ℤ
  min_length : ℤ
  max_length : ℤ
deriving Repr, DecidableEq

/-- The `get_tvdb_info` of `dvd_ripper_windows.py` (lines 345-419).  Its
two HTTP requests are modelled as one injected response carrying the
search hits (show names) and the episode list.  A requests-level failure
raises `DVDError("TVDB API request failed: ...")` — the error propagates
to the caller; an empty search result or empty episode list raises a
`DVDError` re-wrapped by the generic handler. -/
def get_tvdb_info (resp : Except String (List String × List TvdbEpisode))
    (show_name : String) (season_num : ℤ) : Except String ShowInfo :=
  match resp with
  | .error e => .error ("TVDB API request failed: " ++ e)
  | .ok (shows, episodes) =>
    match shows with
    | [] => .error ("TVDB API error: Show not found: " ++ show_name)
    | firstShow :: _ =>
      if episodes.isEmpty then
        .error "TVDB API error: No episodes found for season"
      else
        let episode_numbers := episodes.filterMap fun e =>
          if e.number ≠ 0 then some e.number else none
        let runtimes0 := episodes.filterMap fun e =>
          if 0 < e.runtime then some e.runtime else none
        let runtimes := if runtimes0.isEmpty then [30] else runtimes0
        .ok { show_name := firstShow
              season := season_num
              episode_count :=
                match episode_numbers with
                | [] => 0
                | n :: ns => ns.foldl max n
              min_length :=
                match runtimes with
                | [] => 30
                | r :: rs => rs.foldl min r
              max_length :=
                match runtimes with
                | [] => 30
                | r :: rs => rs.foldl max r }

end Dvd

/-- Counterexample to C5: the dvd variant's resolver propagates a
network error to its caller as a `DVDError` instead of returning the
default window. -/
theorem claim_C5_counterexample_dvd_propagates_error :
    Dvd.get_tvdb_info (Except.error "connection timeout") "Some Show" 1 =
      Except.error "TVDB API request failed: connection timeout" := rfl

/-- C5 amended: the bluray resolver `get_tvdb_episode_info` returns the
fixed default window (1800, 3600) — a pair with no expected-episode
count in its return value — on any lookup error and whenever no runtime
data is found, never propagating the error; the dvd variant's
`get_tvdb_info` instead raises (returns an error) when the lookup fails. -/
theorem claim_C5_metadata_fallback
    (e : String) (season : ℤ) (shows : List ℤ) (episodes : List Bluray.TvdbEpisode)
    (name : String)
    (hnr : episodes.filterMap (fun ep =>
        if ep.seasonNumber = season ∧ ep.runtime ≠ 0 then some ep.runtime else none) = []) :
    Bluray.get_tvdb_episode_info (Except.error e) season = (1800, 3600) ∧
    Bluray.get_tvdb_episode_info (Except.ok (shows, episodes)) season = (1800, 3600) ∧
    Dvd.get_tvdb_info (Except.error e) name season =
      Except.error ("TVDB API request failed: " ++ e) := by
  refine ⟨rfl, ?_, rfl⟩
  by_cases hs : shows.isEmpty
  · simp [Bluray.get_tvdb_episode_info, hs]
  · simp [Bluray.get_tvdb_episode_info, hs, hnr]

/-- Witness for C5 amended: a response with one out-of-season episode
yields the default window. -/
theorem claim_C5_metadata_fallback_witness :
    Bluray.get_tvdb_episode_info (Except.ok ([42], [⟨2, 25⟩])) 1 = (1800, 3600) := by
  have h := claim_C5_metadata_fallback "refused" 1 [42] [⟨2, 25⟩] "X" (by decide)
  exact h.2.1


/-! ### Claims C6 and C7: the catalog parsers -/

/-! ### Python string primitives

Helpers mirroring the exact python string operations the two parsers
use.  `splitlines` is modelled for newline-terminated text (the engine
protocols emit plain `\n`); `float()` is modelled for plain decimal
literals (the engine emits sizes like `12.4 GB`), not exponent forms.
-/

/-- Both-ends whitespace strip on a character list. -/
def stripWsChars (cs : List Char) : List Char :=
  ((cs.dropWhile Char.isWhitespace).reverse.dropWhile Char.isWhitespace).reverse

/-- Python's `str.strip()`. -/
def pyStrip (s : String) : String :=
  String.mk (stripWsChars s.toList)

/-- Python's `str.strip('"')`: remove every leading and trailing double
quote. -/
def stripQuotes (s : String) : String :=
  String.mk (((s.toList.dropWhile (· = '"')).reverse.dropWhile (· = '"')).reverse)

/-- Worker for `pySplitLines`; the reversed accumulator holds the
current line. -/
def splitLinesAux : List Char → List Char → List String
  | acc, [] => if acc.isEmpty then [] else [String.mk acc.reverse]
  | acc, c :: cs =>
    if c = '\n' then String.mk acc.reverse :: splitLinesAux [] cs
    else splitLinesAux (c :: acc) cs

/-- Python's `str.splitlines()` on newline-separated text: no trailing
empty piece for a final newline, and `""` gives no lines at all. -/
def pySplitLines (s : String) : List String :=
  splitLinesAux [] s.toList

/-- Worker for `pySplit`. -/
def splitCharAux (sep : Char) : List Char → List Char → List String
  | acc, [] => [String.mk acc.reverse]
  | acc, c :: cs =>
    if c = sep then String.mk acc.reverse :: splitCharAux sep [] cs
    else splitCharAux sep (c :: acc) cs

/-- Python's `str.split(sep)` with a one-character separator: empty
pieces are kept and `""` yields `[""]`. -/
def pySplit (sep : Char) (s : String) : List String :=
  splitCharAux sep [] s.toList

/-- Worker for `pySplitWs`. -/
def splitWsAux : List Char → List Char → List String
  | acc, [] => if acc.isEmpty then [] else [String.mk acc.reverse]
  | acc, c :: cs =>
    if c.isWhitespace then
      if acc.isEmpty then splitWsAux [] cs
      else String.mk acc.reverse :: splitWsAux [] cs
    else splitWsAux (c :: acc) cs

/-- Python's no-argument `str.split()`: whitespace runs separate tokens
and produce no empty pieces. -/
def pySplitWs (s : String) : List String :=
  splitWsAux [] s.toList

/-- Python's `int()` on a string: optional surrounding whitespace, an
optional sign, then a nonempty digit run; anything else raises
`ValueError`, modelled as `none`. -/
def pyInt (s : String) : Option ℤ :=
  match stripWsChars s.toList with
  | '-' :: ds =>
    if ¬ds.isEmpty ∧ ds.all Char.isDigit then some (-(digitsVal ds : ℤ)) else none
  | '+' :: ds =>
    if ¬ds.isEmpty ∧ ds.all Char.isDigit then some ((digitsVal ds : ℤ)) else none
  | ds =>
    if ¬ds.isEmpty ∧ ds.all Char.isDigit then some ((digitsVal ds : ℤ)) else none

/-- Python's `float()` on a plain decimal literal, as an exact rational. -/
def pyFloatQ (s : String) : Option ℚ :=
  let cs := stripWsChars s.toList
  let sgn : ℚ × List Char :=
    match cs with
    | '-' :: r => (-1, r)
    | '+' :: r => (1, r)
    | r => (1, r)
  let ip := sgn.2.takeWhile Char.isDigit
  match sgn.2.drop ip.length with
  | [] => if ip.isEmpty then none else some (sgn.1 * (digitsVal ip : ℚ))
  | '.' :: fr =>
    if fr.all Char.isDigit ∧ (¬ip.isEmpty ∨ ¬fr.isEmpty) then
      some (sgn.1 * ((digitsVal ip : ℚ) + (digitsVal fr : ℚ) / 10 ^ fr.length))
    else none
  | _ => none

/-- Python's `int()` applied to a float: truncation toward zero. -/
def pyTruncQ (q : ℚ) : ℤ :=
  if 0 ≤ q then ⌊q⌋ else -⌊-q⌋

/-- Assignment `m[k] = v` on a python dict kept as an insertion-ordered
association list: an existing key keeps its position, a fresh key is
appended. -/
def updateAssoc {κ ν : Type} [BEq κ] : List (κ × ν) → κ → ν → List (κ × ν)
  | [], k, v => [(k, v)]
  | (k0, v0) :: rest, k, v =>
    if k0 == k then (k, v) :: rest else (k0, v0) :: updateAssoc rest k v

/-- Python's `re.search`: try a position matcher at every start
position, leftmost first. -/
def searchPos {β : Type} (m : List Char → Option β) : List Char → Option β
  | [] => none
  | c :: cs =>
    match m (c :: cs) with
    | some r => some r
    | none => searchPos m cs


/-- Python's `sub in s` on character lists: some position starts with
the pattern. -/
def containsSub (pat : List Char) : List Char → Bool
  | [] => pat.isEmpty
  | c :: cs => pat.isPrefixOf (c :: cs) || containsSub pat cs


namespace Bluray

/-- The default record created by `parse_titles` the first time a title
id appears. -/
def emptyTitle (title_id : ℤ) : Title :=
  { number := title_id, duration := 0, size_bytes := 0, chapters := 0
    name := "", filename := "" }

/-- Processing of one `TINFO:` line by `parse_titles` (lines 1100-1132):
ensure the record exists, then dispatch on the attribute code; unknown
codes leave the record at its defaults, and an unparsable integer or
float raises (`Except.error`).  Lines with fewer than four
comma-separated parts are skipped. -/
def processTinfoLine (titles : List (ℤ × Title)) (line : String) :
    Except String (List (ℤ × Title)) :=
  match pySplit ',' line with
  | p0 :: code :: _ :: r1 :: rs =>
    match pySplit ':' p0 with
    | _ :: idStr :: _ =>
      match pyInt idStr with
      | none => .error "ValueError: invalid title id"
      | some title_id =>
        let value := stripQuotes (String.intercalate "," (r1 :: rs))
        let t := (titles.lookup title_id).getD (emptyTitle title_id)
        let titles1 := updateAssoc titles title_id t
        if code = "2" then
          .ok (updateAssoc titles1 title_id { t with name := value })
        else if code = "8" then
          match pyInt value with
          | none => .error "ValueError: invalid chapter count"
          | some n => .ok (updateAssoc titles1 title_id { t with chapters := n })
        else if code = "9" then
          match pySplit ':' value with
          | [hs, ms, ss] =>
            match pyInt hs, pyInt ms, pyInt ss with
            | some h, some m, some s2 =>
              .ok (updateAssoc titles1 title_id
                { t with duration := h * 3600 + m * 60 + s2 })
            | _, _, _ => .error "ValueError: invalid duration"
          | _ => .error "ValueError: duration does not unpack into three parts"
        else if code = "10" then
          if containsSub ("GB".toList) value.toList then
            match pySplitWs value with
            | [] => .error "IndexError: empty size string"
            | v0 :: _ =>
              match pyFloatQ v0 with
              | none => .error "ValueError: invalid size"
              | some gb =>
                .ok (updateAssoc titles1 title_id
                  { t with size_bytes := pyTruncQ (gb * 1024 ^ 3) })
          else .ok titles1
        else if code = "27" then
          .ok (updateAssoc titles1 title_id { t with filename := value })
        else .ok titles1
    | _ => .error "IndexError: TINFO line has no colon"
  | _ => .ok titles

/-- One `SINFO:` line: the two leading integers are parsed (their
failure raises) and nothing else happens. -/
def processSinfoLine (titles : List (ℤ × Title)) (line : String) :
    Except String (List (ℤ × Title)) :=
  match pySplit ',' line with
  | p0 :: p1 :: _ :: _ :: _ =>
    match pySplit ':' p0 with
    | _ :: idStr :: _ =>
      match pyInt idStr, pyInt p1 with
      | some _, some _ => .ok titles
      | _, _ => .error "ValueError: invalid SINFO ids"
    | _ => .error "IndexError: SINFO line has no colon"
  | _ => .ok titles

/-- One `TCOUNT:` line: the count after the colon is parsed (failure
raises) and then discarded. -/
def processTcountLine (titles : List (ℤ × Title)) (line : String) :
    Except String (List (ℤ × Title)) :=
  match pySplit ':' line with
  | _ :: second :: _ =>
    match pyInt second with
    | some _ => .ok titles
    | none => .error "ValueError: invalid title count"
  | _ => .error "IndexError: TCOUNT line has no colon"

/-- The line loop of `parse_titles`: `TCOUNT:`, `TINFO:` and `SINFO:`
lines are dispatched, every other line is ignored. -/
def parseTitlesLoop : List String → List (ℤ × Title) →
    Except String (List (ℤ × Title))
  | [], titles => .ok titles
  | line :: rest, titles =>
    if pyStartsWith line "TCOUNT:" then
      match processTcountLine titles line with
      | .error e => .error e
      | .ok titles1 => parseTitlesLoop rest titles1
    else if pyStartsWith line "TINFO:" then
      match processTinfoLine titles line with
      | .error e => .error e
      | .ok titles1 => parseTitlesLoop rest titles1
    else if pyStartsWith line "SINFO:" then
      match processSinfoLine titles line with
      | .error e => .error e
      | .ok titles1 => parseTitlesLoop rest titles1
    else parseTitlesLoop rest titles

/-- The `parse_titles` of `bluray_ripper.py` (lines 1087-1158): parse
every line, then drop the titles shorter than the fixed 120-second
threshold.  An empty or zero-title output produces `Except.ok []` — the
function itself never fails for lack of titles. -/
def parse_titles (output : String) : Except String (List (ℤ × Title)) :=
  match parseTitlesLoop (pySplitLines output) [] with
  | .error e => .error e
  | .ok titles => .ok (titles.filter fun kv => 120 ≤ kv.2.duration)

/-- The caller-side check in `main` (lines 1288-1291): an empty title
mapping raises `BluRayError("No valid titles found on disc")`. -/
def main_titles_guard (r : Except String (List (ℤ × Title))) :
    Except String (List (ℤ × Title)) :=
  match r with
  | .error e => .error e
  | .ok titles => if titles.isEmpty then .error "No valid titles found on disc" else .ok titles

end Bluray

namespace Dvd

/-- Matcher for `\+ title (\d+):` at the current position. -/
def matchTitleAt (cs : List Char) : Option ℕ :=
  let pat := "+ title ".toList
  if pat.isPrefixOf cs then
    let rest := cs.drop pat.length
    let ds := rest.takeWhile Char.isDigit
    if ds.isEmpty then none
    else if (rest.drop ds.length).head? = some ':' then some (digitsVal ds)
    else none
  else none

/-- Two digits of a `\d{2}` group. -/
def take2Digits (cs : List Char) : Option (ℕ × List Char) :=
  match cs with
  | a :: b :: rest =>
    if a.isDigit ∧ b.isDigit then some (digitsVal [a, b], rest) else none
  | _ => none

/-- One literal character. -/
def expectChar (c : Char) (cs : List Char) : Option (List Char) :=
  match cs with
  | a :: rest => if a = c then some rest else none
  | [] => none

/-- Matcher for `<pat>(\d{2}):(\d{2}):(\d{2})` at the current position,
returning the parsed duration in seconds. -/
def matchHMSAt (pat : List Char) (cs : List Char) : Option ℕ :=
  if pat.isPrefixOf cs then
    match take2Digits (cs.drop pat.length) with
    | none => none
    | some (h, r1) =>
      match expectChar ':' r1 with
      | none => none
      | some r2 =>
        match take2Digits r2 with
        | none => none
        | some (m, r3) =>
          match expectChar ':' r3 with
          | none => none
          | some r4 =>
            match take2Digits r4 with
            | none => none
            | some (s, _) => some (h * 3600 + m * 60 + s)
  else none

/-- Matcher for `\+ (\d+): duration (\d{2}):(\d{2}):(\d{2})` at the
current position, returning chapter number and duration. -/
def matchChapterAt (cs : List Char) : Option (ℕ × ℕ) :=
  let pat := "+ ".toList
  if pat.isPrefixOf cs then
    let rest := cs.drop pat.length
    let ds := rest.takeWhile Char.isDigit
    if ds.isEmpty then none
    else
      match matchHMSAt (": duration ".toList) (rest.drop ds.length) with
      | some secs => some (digitsVal ds, secs)
      | none => none
  else none

/-- Parser state of `scan_disc`: the accumulated titles, the current
title id and the current section name. -/
structure ScanState where
  titles : List (ℕ × Title)
  current_title : Option ℕ
  current_section : Option String
deriving Repr, DecidableEq

/-- The checks following the title-header branch.  A falsy
`current_title` (absent, or title number 0) skips the line entirely;
then section headers, the duration line and chapter lines are handled
in the source's order. -/
def scanLineRest (st : ScanState) (line : String) : ScanState :=
  match st.current_title with
  | none => st
  | some ct =>
    if ct = 0 then st
    else
      if pyStartsWith line "+ chapters:" then
        { st with current_section := some "chapters" }
      else if pyStartsWith line "+ audio tracks:" then
        { st with current_section := some "audio" }
      else if pyStartsWith line "+ subtitle tracks:" then
        { st with current_section := some "subtitles" }
      else if pyStartsWith line "+ duration:" then
        match searchPos (matchHMSAt ("duration: ".toList)) line.toList with
        | some secs =>
          let t := (st.titles.lookup ct).getD ⟨0, [], [], []⟩
          { st with titles := updateAssoc st.titles ct { t with duration := (secs : ℤ) } }
        | none => st
      else if st.current_section = some "chapters" ∧ pyStartsWith line "+ " then
        match searchPos matchChapterAt line.toList with
        | some (chapNum, chapDur) =>
          if 0 < chapDur then
            let t := (st.titles.lookup ct).getD ⟨0, [], [], []⟩
            let t2 := { t with chapters := t.chapters ++ [(chapNum, (chapDur : ℤ))] }
            { st with titles := updateAssoc st.titles ct t2 }
          else st
        | none => st
      else st

/-- One iteration of the parsing loop in `scan_disc` (lines 218-268):
the line is stripped, a matching title header resets the per-title
state, every other line goes through `scanLineRest`. -/
def scanLine (st : ScanState) (raw : String) : ScanState :=
  let line := pyStrip raw
  if pyStartsWith line "+ title" then
    match searchPos matchTitleAt line.toList with
    | some tn =>
      { titles := updateAssoc st.titles tn ⟨0, [], [], []⟩
        current_title := some tn
        current_section := none }
    | none => scanLineRest st line
  else scanLineRest st line

/-- The post-filter of `scan_disc` (lines 270-283): keep a title exactly
when its duration is at least 0.25 minutes and it has at least one
chapter longer than 15 seconds, replacing its chapter list by the valid
chapters. -/
def scanDiscPostFilter (titles : List (ℕ × Title)) : List (ℕ × Title) :=
  titles.filterMap fun kv =>
    let valid_chapters := kv.2.chapters.filter fun c => decide (15 < c.2)
    if (1 : ℚ)/4 ≤ (kv.2.duration : ℚ) / 60 ∧ ¬valid_chapters.isEmpty then
      some (kv.1, { kv.2 with chapters := valid_chapters })
    else none

/-- The parsing-and-filtering portion of `scan_disc` in
`dvd_ripper_windows.py` (lines 218-283), applied to one engine output
(the subprocess/retry scaffolding around it is I/O). -/
def scanDiscParse (output : String) : List (ℕ × Title) :=
  scanDiscPostFilter ((pySplitLines output).foldl scanLine ⟨[], none, none⟩).titles

end Dvd


/-- A handbrake scan output containing one 60-second title with one
20-second chapter. -/
def shortTitleScanOutput : String :=
  "+ title 1:\n  + duration: 00:01:00\n  + chapters:\n    + 1: duration 00:00:20\n"

lemma scanDiscParse_shortTitleScanOutput :
    Dvd.scanDiscParse shortTitleScanOutput = [(1, ⟨60, [(1, 20)], [], []⟩)] := by
  have hloop : ((pySplitLines shortTitleScanOutput).foldl Dvd.scanLine ⟨[], none, none⟩).titles =
      [(1, ⟨60, [(1, 20)], [], []⟩)] := rfl
  rw [Dvd.scanDiscParse, hloop, Dvd.scanDiscPostFilter]
  have hfil : (([((1:ℕ), (20:ℤ))]).filter fun c => decide (15 < c.2)) = [(1, 20)] := by decide
  simp only [List.filterMap_cons, List.filterMap_nil, hfil]
  rw [if_pos (⟨by norm_num, by simp⟩ :
    (1:ℚ)/4 ≤ ((60:ℤ):ℚ)/60 ∧ ¬([((1:ℕ), (20:ℤ))].isEmpty = true))]

/-- Counterexample to C6: the dvd variant's catalog parser keeps a
60-second title (its threshold is 15 seconds plus one >15-second
chapter, not 120 seconds). -/
theorem claim_C6_counterexample_dvd_keeps_short_title :
    Dvd.scanDiscParse shortTitleScanOutput = [(1, ⟨60, [(1, 20)], [], []⟩)] ∧
    (60 : ℤ) < 120 :=
  ⟨scanDiscParse_shortTitleScanOutput, by decide⟩

/-- C6 amended: every title returned by the bluray `parse_titles` has
duration at least the fixed 120-second threshold; the dvd `scan_disc`
post-filter instead guarantees only a 15-second minimum duration and a
nonempty list of chapters each longer than 15 seconds. -/
theorem claim_C6_minimum_duration_filter (outB outD : String) :
    (∀ ts, Bluray.parse_titles outB = Except.ok ts → ∀ kv ∈ ts, 120 ≤ kv.2.duration) ∧
    (∀ kv ∈ Dvd.scanDiscParse outD,
      15 ≤ kv.2.duration ∧ kv.2.chapters ≠ [] ∧ ∀ c ∈ kv.2.chapters, 15 < c.2) := by
  constructor
  · intro ts hts kv hkv
    rw [Bluray.parse_titles] at hts
    cases hloop : Bluray.parseTitlesLoop (pySplitLines outB) [] with
    | error e => rw [hloop] at hts; cases hts
    | ok titles =>
      rw [hloop] at hts
      have hts2 : titles.filter (fun kv => 120 ≤ kv.2.duration) = ts := Except.ok.inj hts
      rw [← hts2] at hkv
      have := (List.mem_filter.mp hkv).2
      exact of_decide_eq_true this
  · intro kv hkv
    rw [Dvd.scanDiscParse, Dvd.scanDiscPostFilter] at hkv
    obtain ⟨kv0, _, heq⟩ := List.mem_filterMap.mp hkv
    by_cases hcond : (1 : ℚ)/4 ≤ (kv0.2.duration : ℚ) / 60 ∧
        ¬((kv0.2.chapters.filter fun c => decide (15 < c.2)).isEmpty = true)
    · rw [if_pos hcond] at heq
      have hkv2 := Option.some.inj heq
      subst hkv2
      have hdur : (15 : ℚ) ≤ (kv0.2.duration : ℚ) := by
        have := hcond.1
        linarith
      refine ⟨?_, ?_, ?_⟩
      · exact_mod_cast hdur
      · intro hempty
        have h3 : kv0.2.chapters.filter (fun c => decide (15 < c.2)) = [] := hempty
        exact hcond.2 (by rw [h3]; rfl)
      · intro c hc
        have hc2 : c ∈ kv0.2.chapters.filter (fun c => decide (15 < c.2)) := hc
        have := (List.mem_filter.mp hc2).2
        exact of_decide_eq_true this
    · rw [if_neg hcond] at heq
      cases heq

/-- Witness for C6 amended at concrete engine outputs for both variants. -/
theorem claim_C6_minimum_duration_filter_witness :
    (120 : ℤ) ≤ 1800 ∧ (15 : ℤ) ≤ 60 := by
  have h := claim_C6_minimum_duration_filter "TINFO:0,9,0,\"0:30:00\"" shortTitleScanOutput
  constructor
  · exact h.1 [(0, ⟨0, 1800, 0, 0, "", ""⟩)] rfl (0, ⟨0, 1800, 0, 0, "", ""⟩) (by simp)
  · exact (h.2 (1, ⟨60, [(1, 20)], [], []⟩)
      (by rw [scanDiscParse_shortTitleScanOutput]; simp)).1

/-- Counterexample to C7: on empty engine output `parse_titles` returns
an empty mapping instead of failing. -/
theorem claim_C7_counterexample_parse_titles_returns_empty :
    Bluray.parse_titles "" = Except.ok [] := rfl

/-- C7 amended: `parse_titles` returns an empty mapping for an empty or
zero-post-filter output and never fails for lack of titles; the fatal
error (`BluRayError("No valid titles found on disc")`) is raised by the
caller in `main`, which checks the mapping for emptiness. -/
theorem claim_C7_empty_scan_caller_fatal :
    Bluray.parse_titles "" = Except.ok [] ∧
    Bluray.main_titles_guard (Bluray.parse_titles "") =
      Except.error "No valid titles found on disc" ∧
    (∀ out ts, Bluray.parse_titles out = Except.ok ts → ts = [] →
      Bluray.main_titles_guard (Bluray.parse_titles out) =
        Except.error "No valid titles found on disc") := by
  refine ⟨rfl, rfl, ?_⟩
  intro out ts h he
  subst he
  rw [h]
  rfl

/-- Witness for C7 amended at the empty output. -/
theorem claim_C7_empty_scan_caller_fatal_witness :
    Bluray.main_titles_guard (Bluray.parse_titles "") =
      Except.error "No valid titles found on disc" :=
  claim_C7_empty_scan_caller_fatal.2.2 "" [] rfl rfl


/-! ### Claim C9: rip verification -/

namespace Dvd

/-- Observable outcome of one attempt of the dvd `rip_title` loop:
whether a DVD read-error line was seen, whether progress stalled for
over a minute, whether the ten-minute wait timed out, the engine's exit
code, and the produced file's existence and byte size. -/
structure AttemptObs where
  readError : Bool
  stalled : Bool
  timedOut : Bool
  returncode : ℤ
  fileExists : Bool
  fileSize : ℤ
deriving Repr, DecidableEq

/-- One attempt of `rip_title` in `dvd_ripper_windows.py` (lines
516-611), in the order of its raise points: a read error always raises;
a stall raises only when a retry remains; then the wait timeout; then
the exit-code check; with exit code 0 the output file must exist and
exceed 1000000 bytes, otherwise the attempt raises
`Output file missing or too small`. -/
def ripAttempt (isLast : Bool) (a : AttemptObs) : Except String Bool :=
  if a.readError then .error "DVD read error"
  else if a.stalled ∧ ¬isLast then .error "Progress stalled (will retry)"
  else if a.timedOut then .error "Rip timed out"
  else if a.returncode = 0 then
    if a.fileExists ∧ 1000000 < a.fileSize then .ok true
    else .error "Output file missing or too small"
  else .error "HandBrake failed"

/-- The three-attempt retry loop of `rip_title` (lines 514-624): an
attempt that raises is retried up to twice, the third error propagates
to the caller. -/
def rip_title (a1 a2 a3 : AttemptObs) : Except String Bool :=
  match ripAttempt false a1 with
  | .ok b => .ok b
  | .error _ =>
    match ripAttempt false a2 with
    | .ok b => .ok b
    | .error _ => ripAttempt true a3

end Dvd

namespace Bluray

/-- The `verify_ripped_file` of `bluray_ripper.py` (lines 336-344) as a
function of the ffmpeg exit code and the file's existence and size; when
the code is 0 but the file is missing, `stat` raises and the handler
returns `False`. -/
def verify_ripped_file (ffmpegCode : ℤ) (fileExists : Bool) (fileSize : ℤ) : Bool :=
  if ffmpegCode = 0 then (if fileExists then decide (1000000 < fileSize) else false)
  else false

/-- The `find_latest_mkv` of `bluray_ripper.py` (lines 889-894) over a
directory listing of (name, mtime, size) triples: among the `.mkv`
files with modification time after `created_after`, the first one of
maximal mtime (python's `max` keeps the first maximal element). -/
def find_latest_mkv (files : List (String × ℕ × ℤ)) (created_after : ℕ) :
    Option (String × ℕ × ℤ) :=
  let mkv_files := files.filter fun f => pyEndsWith f.1 ".mkv"
  let recent_files := mkv_files.filter fun f => decide (created_after < f.2.1)
  match recent_files with
  | [] => none
  | f :: fs => some (fs.foldl (fun best g => if best.2.1 < g.2.1 then g else best) f)

/-- The per-title success report of `process_tv_show` (lines 1020-1043):
"Successfully ripped" is printed exactly when `rip_title` returned a
process, `find_latest_mkv` found a fresh file, and the rename did not
raise.  The exit code of the engine, the file size, and
`verify_ripped_file` play no part in it. -/
def rip_report_success (ripStarted : Bool) (files : List (String × ℕ × ℤ))
    (start_time : ℕ) (renameOk : Bool) : Bool :=
  ripStarted && (find_latest_mkv files start_time).isSome && renameOk

end Bluray

/-- Counterexample to C9: the bluray pipeline reports a rip as
successful for a freshly created 500-byte file, which
`verify_ripped_file` (never invoked there) would reject. -/
theorem claim_C9_counterexample_bluray_reports_tiny_file :
    Bluray.rip_report_success true [("title_t00.mkv", 100, 500)] 50 true = true ∧
    Bluray.verify_ripped_file 0 true 500 = false := by
  constructor
  · rfl
  · rfl

lemma ripAttempt_ok {isLast : Bool} {a : Dvd.AttemptObs} {b : Bool}
    (h : Dvd.ripAttempt isLast a = .ok b) :
    a.returncode = 0 ∧ a.fileExists = true ∧ 1000000 < a.fileSize := by
  rw [Dvd.ripAttempt] at h
  split_ifs at h with h1 h2 h3 h4 h5
  · exact ⟨h4, h5.1, h5.2⟩

/-- C9 amended: the dvd `rip_title` reports success only when some
attempt saw engine exit code 0 together with an existing output file
larger than 1 MB, and bluray's `verify_ripped_file` accepts only a
0 exit code with an existing file larger than 1 MB; but the bluray
`process_tv_show` never invokes `verify_ripped_file` — it reports
success exactly when the rip process started, a fresh `.mkv` was found,
and the rename succeeded, with no size or decode check. -/
theorem claim_C9_rip_success_verification
    (a1 a2 a3 : Dvd.AttemptObs) (rc size : ℤ) (ex : Bool)
    (started renameOk : Bool) (files : List (String × ℕ × ℤ)) (t : ℕ) :
    (Dvd.rip_title a1 a2 a3 = Except.ok true →
      ((a1.returncode = 0 ∧ a1.fileExists = true ∧ 1000000 < a1.fileSize) ∨
       (a2.returncode = 0 ∧ a2.fileExists = true ∧ 1000000 < a2.fileSize) ∨
       (a3.returncode = 0 ∧ a3.fileExists = true ∧ 1000000 < a3.fileSize))) ∧
    (Bluray.verify_ripped_file rc ex size = true →
      rc = 0 ∧ ex = true ∧ 1000000 < size) ∧
    (Bluray.rip_report_success started files t renameOk = true →
      started = true ∧ (Bluray.find_latest_mkv files t).isSome = true ∧ renameOk = true) := by
  refine ⟨?_, ?_, ?_⟩
  · intro h
    rw [Dvd.rip_title] at h
    cases h1 : Dvd.ripAttempt false a1 with
    | ok b => exact Or.inl (ripAttempt_ok h1)
    | error e1 =>
      rw [h1] at h
      cases h2 : Dvd.ripAttempt false a2 with
      | ok b => exact Or.inr (Or.inl (ripAttempt_ok h2))
      | error e2 =>
        rw [h2] at h
        simp only [] at h
        exact Or.inr (Or.inr (ripAttempt_ok h))
  · intro h
    rw [Bluray.verify_ripped_file] at h
    split_ifs at h with h1 h2
    · exact ⟨h1, h2, of_decide_eq_true h⟩
  · intro h
    rw [Bluray.rip_report_success] at h
    simp only [Bool.and_eq_true] at h
    exact ⟨h.1.1, h.1.2, h.2⟩

/-- Witness for C9 amended at an all-good rip attempt. -/
theorem claim_C9_rip_success_verification_witness :
    ((0 : ℤ) = 0 ∧ true = true ∧ (1000000 : ℤ) < 2000000) ∨
    ((0 : ℤ) = 0 ∧ true = true ∧ (1000000 : ℤ) < 2000000) ∨
    ((0 : ℤ) = 0 ∧ true = true ∧ (1000000 : ℤ) < 2000000) := by
  have h := claim_C9_rip_success_verification
    ⟨false, false, false, 0, true, 2000000⟩ ⟨false, false, false, 0, true, 2000000⟩
    ⟨false, false, false, 0, true, 2000000⟩ 0 2000000 true true true [] 0
  exact h.1 (by rfl)


end DiscRipper
